import Mathlib

/-!
Verification of the file-mapper library (`doitfilemappers/filemappers.py`).

The Python classes are embedded shallowly: `pathlib.Path` values are their
normalized string forms, the mapper objects become explicit state records,
`raise` becomes `Except.error`, and generators become the list of their
yielded values.  The regular-expression engine and `pathlib` joining are
external primitives and are modelled as such (see `Regex` and `pathJoin`).
-/

namespace DoitFileMappers

/-- Path locators (`pathlib.Path`) are modelled by their normalized string
form; `str(p)` is the identity. -/
abbrev Path := String

/-- The external `pathlib` join `base / p` for the relative paths the mappers
use: joining onto the default base directory `"."` leaves the path unchanged,
otherwise the two parts are joined with a slash. -/
def pathJoin (base p : Path) : Path :=
  if base = "." then p else base ++ "/" ++ p

/-- Python's `list(set(xs))` on stringified paths: deduplication, keeping the first
occurrence of every element (one concrete enumeration order of the Python
set). -/
def pySet : List String → List String
  | [] => []
  | x :: xs => x :: (pySet xs).filter (fun y => y ≠ x)

/-- Decimal digit characters of `n`, most significant first, with explicit
fuel so that the definition is structural; `fuel ≥ n` is enough fuel. -/
def natToStrAux : Nat → Nat → List Char
  | 0, _ => []
  | _ + 1, 0 => []
  | fuel + 1, n + 1 => natToStrAux fuel ((n + 1) / 10) ++ [Nat.digitChar ((n + 1) % 10)]

/-- Python's `str` on a non-negative integer: its decimal representation. -/
def natToStr (n : Nat) : String :=
  if n = 0 then "0" else String.mk (natToStrAux n n)

/-- Reads a decimal digit string back; left inverse of `natToStr`. -/
def strToNatAux (l : List Char) : Nat :=
  l.foldl (fun acc c => acc * 10 + (c.toNat - 48)) 0

/-- The possible results of a Python per-entry callback relevant to the
action's success bookkeeping: `None`, booleans, integers, strings. -/
inductive PyRes where
  | none
  | bool (b : Bool)
  | int (n : Int)
  | str (s : String)

/-- Python's `x == False` test used by `task_action`: `False == False` and
`0 == False` hold, whereas `None`, strings and all other values do not compare
equal to `False`. -/
def pyEqFalse : PyRes → Bool
  | .bool b => !b
  | .int n => n == 0
  | _ => false

/-- Python truthiness, negated: `None`, `False`, `0` and `""` are falsy. -/
def pyFalsy : PyRes → Bool
  | .none => true
  | .bool b => !b
  | .int n => n == 0
  | .str s => s == ""

/-- The compiled regular-expression primitive (Python's `re` module), modelled
abstractly: `search s` says whether `pattern.search(s)` finds a match
anywhere in `s`, and `sub s` is `re.sub(pattern, replace, s)`.
`sub_of_not_search` records the `re` library's guarantee that when the search
finds no match, the substitution performs zero replacements and returns the
string unchanged. -/
structure Regex where
  search : String → Bool
  sub : String → String
  sub_of_not_search : ∀ s, search s = false → sub s = s

/-- A runnable or literal-command entry of a task's `actions` list:
`built f file_map` is the closure returned by `BaseFileMapper.get_action`
(it iterates `file_map` calling `f`), `cmd line` is one literal command string
produced by `get_cmd_action`, and `noop` is the `lambda targets: True`
substituted for an empty mapping. -/
inductive TaskAction where
  | built (callback : Path → Path → PyRes) (file_map : List (Path × Path))
  | cmd (line : String)
  | noop

/-- A value usable as a per-entry callback: a callable (has `__call__`) or a
command-template string. -/
inductive Callback where
  | callable (f : Path → Path → PyRes)
  | str (s : String)

/-- The task dictionary handed to and returned by `get_task`.  Each field is
`Option`al: `Option.none` models the key being absent from the dict. -/
structure Task where
  targets : Option (List String) := Option.none
  actions : Option (List TaskAction) := Option.none
  file_dep : Option (List String) := Option.none
  action : Option Callback := Option.none
  name : Option String := Option.none

/-- The base task dictionary `{}`. -/
def emptyTask : Task := {}

/-- The loop of the function returned by `BaseFileMapper.get_action`:
`ok = True; for source, target in file_map: if callback(source, target) == False:
ok = False; return ok`.  The callback is threaded through an explicit state `σ`
so that its invocations (side effects) are observable. -/
def task_action_go {σ : Type} (callback : σ → Path → Path → PyRes × σ) :
    List (Path × Path) → Bool → σ → Bool × σ
  | [], ok, s => (ok, s)
  | e :: rest, ok, s =>
    let r := callback s e.1 e.2
    task_action_go callback rest (if pyEqFalse r.1 then false else ok) r.2

/-- The runnable returned by `BaseFileMapper.get_action` (its ignored
`targets` parameter is dropped). -/
def task_action {σ : Type} (callback : σ → Path → Path → PyRes × σ)
    (file_map : List (Path × Path)) (s : σ) : Bool × σ :=
  task_action_go callback file_map true s

/-- A pure callback, lifted into the stateful callback shape. -/
def pure_callback (f : Path → Path → PyRes) : Unit → Path → Path → PyRes × Unit :=
  fun _ a b => (f a b, ())

/-- The runnable returned by `get_action` for a callback with no side effects. -/
def task_action_pure (f : Path → Path → PyRes) (file_map : List (Path × Path)) : Bool :=
  (task_action (pure_callback f) file_map ()).1

/-- Invoking a task action (the external scheduler calling it): `built`
closures run the `get_action` loop, the `noop` lambda returns `True`;
literal command lines are outside the model and count as succeeding. -/
def TaskAction.invoke : TaskAction → Bool
  | .built f m => task_action_pure f m
  | .cmd _ => true
  | .noop => true

/-- An effectful callback that records every invocation: it returns `f a b`
and appends the invoked `(source, target)` pair to the trace. -/
def trace_callback (f : Path → Path → PyRes) :
    List (Path × Path) → Path → Path → PyRes × List (Path × Path) :=
  fun s a b => (f a b, s ++ [(a, b)])

/-- The configuration of `RegexMapper`: the compiled search pattern / replacement
(as the abstract `Regex` primitive) and the `ignore_nonmatching` flag. -/
structure RegexCfg where
  pattern : Regex
  ignore_nonmatching : Bool

/-- The method `RegexMapper._source_matches`: `not self.ignore_nonmatching or
self.pattern.search(str(source))`. -/
def regex_source_matches (m : RegexCfg) (source : Path) : Bool :=
  !m.ignore_nonmatching || m.pattern.search source

/-- The method `RegexMapper._get_target_from_source`: `Path(re.sub(self.pattern,
self.replace, str(source)))`. -/
def regex_get_target_from_source (m : RegexCfg) (source : Path) : Path :=
  m.pattern.sub source

/-- The method `RegexMapper._create_map`: `[(f, self._get_target_from_source(f)) for f in
src if self._source_matches(f)]`. -/
def regex_create_map (m : RegexCfg) (src : List Path) : List (Path × Path) :=
  (src.filter (regex_source_matches m)).map
    (fun f => (f, regex_get_target_from_source m f))

/-- Python 2's `re.escape` on one character: alphanumeric characters are kept,
the NUL character becomes `\000`, every other character is backslash-escaped. -/
def re_escape_char (c : Char) : String :=
  if c.isAlphanum then String.singleton c
  else if c = Char.ofNat 0 then "\\000"
  else "\\" ++ String.singleton c

/-- Python 2's `re.escape`. -/
def re_escape (s : String) : String :=
  String.join (s.data.map re_escape_char)

/-- Python's `pattern.count("*")`. -/
def count_asterisks (s : String) : Nat :=
  (s.data.filter (fun c => c = '*')).length

/-- Python's `pattern.split("*", 2)` for a pattern holding exactly one asterisk: the
text before the first asterisk and the text after it. -/
def glob_parts (s : String) : String × String :=
  (String.mk (s.data.takeWhile (fun c => c ≠ '*')),
   String.mk ((s.data.dropWhile (fun c => c ≠ '*')).drop 1))

/-- The method `GlobMapper._get_search_regex`: raises unless the glob pattern holds
exactly one asterisk, then translates it to an anchored regular expression
with a `(.+)` capturing group in place of the asterisk. -/
def get_search_regex (pattern : String) : Except String String :=
  let cnt := count_asterisks pattern
  if cnt = 0 then .error "Glob pattern must contain one asterisk."
  else if cnt > 1 then .error "Glob pattern can only contain one asterisk."
  else
    let parts := glob_parts pattern
    .ok ("^" ++ re_escape parts.1 ++ "(.+)" ++ re_escape parts.2 ++ "$")

/-- Python's `replace.replace("*", "\\1", 1)`: the first asterisk of the replacement
pattern becomes the backreference `\1`. -/
def replace_first_star (s : String) : String :=
  if s.data.contains '*' then
    String.mk (s.data.takeWhile (fun c => c ≠ '*'))
      ++ "\\1"
      ++ String.mk ((s.data.dropWhile (fun c => c ≠ '*')).drop 1)
  else s

/-- A `GlobMapper` source argument: a glob string or an explicit path list. -/
inductive GlobSrc where
  | str (s : String)
  | paths (ps : List Path)

/-- The search/replace string pair a successful `GlobMapper.__init__` hands on
to `RegexMapper.__init__` (which compiles them with the external `re` module). -/
structure RegexStrings where
  search : String
  replace : String

/-- The constructor `GlobMapper.__init__`: picks the glob pattern from the (truthy) `pattern`
argument or from a string `src`, converts it via `_get_search_regex` (raising
on a bad asterisk count), converts the replacement's first asterisk to `\1`,
and delegates the resulting pair to `RegexMapper`. -/
def glob_mapper_init (src : GlobSrc) (replace : String) (pattern : Option String) :
    Except String RegexStrings :=
  let patArg : Option String :=
    match pattern with
    | some p => if p = "" then Option.none else some p
    | Option.none => Option.none
  match patArg with
  | some p =>
    match get_search_regex p with
    | .error e => .error e
    | .ok search => .ok ⟨search, replace_first_star replace⟩
  | Option.none =>
    match src with
    | .str s =>
      match get_search_regex s with
      | .error e => .error e
      | .ok search => .ok ⟨search, replace_first_star replace⟩
    | .paths _ =>
      .error "No valid glob search pattern found! You must either provide a glob string in src or via pattern."

/-- A `MergeMapper` `target` argument: a `Path`, a string, or `None`. -/
inductive TargetArg where
  | path (p : Path)
  | str (s : String)
  | none

/-- The `MergeMapper.target` property setter: keeps a `Path`, raises on
`None`, and normalizes anything else through `pathlib.Path`. -/
def merge_target_setter : TargetArg → Except String Path
  | .path p => .ok p
  | .none => .error "Target must be set!"
  | .str s => .ok s

/-- The closed set of concrete mapping strategies of the library that can
serve as stand-alone or sub-mappers; each variant's `_create_map` is the
corresponding class's override. -/
inductive MapperKind where
  | identity
  | regex (cfg : RegexCfg)
  | merge (target : Path)

/-- Python's `type(mapper).__name__` for the modelled mapper classes. -/
def typeName : MapperKind → String
  | .identity => "IdentityMapper"
  | .regex _ => "RegexMapper"
  | .merge _ => "MergeMapper"

/-- The state of a constructed `BaseFileMapper` instance: its configuration
and the memoization fields `map` / `map_initialized`, with `src` already
resolved to a path list. -/
structure MState where
  kind : MapperKind
  in_path : Path := "."
  file_dep : Bool := true
  allow_empty_map : Bool := false
  callback : Option Callback := Option.none
  src : List Path := []
  map : List (Path × Path) := []
  map_initialized : Bool := false

/-- The dispatch of the abstract `_create_map(src)` to the concrete strategy:
`IdentityMapper` maps every source to itself, `RegexMapper` filters and
substitutes, `MergeMapper` maps every source to the fixed target. -/
def create_map (k : MapperKind) (src : List Path) : List (Path × Path) :=
  match k with
  | .identity => src.map (fun f => (f, f))
  | .regex cfg => regex_create_map cfg src
  | .merge target => src.map (fun f => (f, target))

/-- The method `BaseFileMapper.get_map`: computes `_create_map(self.src)` on first use
and caches it in `self.map` / `self.map_initialized`. -/
def get_map (m : MState) : List (Path × Path) × MState :=
  if m.map_initialized then (m.map, m)
  else
    let mp := create_map m.kind m.src
    (mp, { m with map := mp, map_initialized := true })

/-- The `src` property setter for a path-list argument:
`self._src = [self.in_path / p for p in src]; self.map_initialized = False`. -/
def set_src (m : MState) (src : List Path) : MState :=
  { m with src := src.map (pathJoin m.in_path), map_initialized := false }

/-- Replaces every occurrence of `pat` in `l` with `rep`, scanning left to
right; the fuel (taken as `l.length`) keeps the recursion structural. -/
def replaceAllAux (rep pat : List Char) : Nat → List Char → List Char
  | 0, l => l
  | fuel + 1, l =>
    if pat ≠ [] ∧ pat.isPrefixOf l then
      rep ++ replaceAllAux rep pat fuel (l.drop pat.length)
    else
      match l with
      | [] => []
      | c :: rest => c :: replaceAllAux rep pat fuel rest

/-- String replacement of every occurrence of a (non-empty) pattern. -/
def str_replace (s pat rep : String) : String :=
  if pat = "" then s
  else String.mk (replaceAllAux rep.data pat.data s.data.length s.data)

/-- Expansion of the placeholders `%(source)s` and `%(target)s` of a command
template by Python's `%` formatting with a source/target dictionary. -/
def cmd_expand (cmd : String) (source target : Path) : String :=
  str_replace (str_replace cmd "%(source)s" source) "%(target)s" target

/-- The method `BaseFileMapper.get_cmd_action`: one literal command per mapping entry,
in mapping order. -/
def get_cmd_action (cmd : String) (file_map : List (Path × Path)) : List TaskAction :=
  file_map.map (fun m => .cmd (cmd_expand cmd m.1 m.2))

/-- The dispatch `callback = self.callback; if callback == None: if "action" in task:
callback = task["action"]`. -/
def effective_callback (m_cb : Option Callback) (task : Task) : Option Callback :=
  match m_cb with
  | Option.none => task.action
  | some c => some c

/-- The method `BaseFileMapper._get_task_for_empty_map`: adds the no-op action
`lambda targets: True` when the task has no `actions` key, and returns the
task otherwise untouched. -/
def get_task_for_empty_map (task : Task) : Task :=
  match task.actions with
  | Option.none => { task with actions := some [TaskAction.noop] }
  | some _ => task

/-- The body of `BaseFileMapper.get_task` after `get_map` has produced
`file_map`: the empty-map policy, the `targets` assignment from the
stringified target set, the callback dispatch into `actions`, and the
optional `file_dep` assignment. -/
def build_task (file_map : List (Path × Path)) (allow_empty_map use_file_dep : Bool)
    (m_cb : Option Callback) (task : Task) : Except String Task :=
  if file_map.isEmpty then
    if allow_empty_map then .ok (get_task_for_empty_map task)
    else .error "The generated map is empty. Please check your mapper parameters."
  else
    let sources := file_map.map Prod.fst
    let targets := file_map.map Prod.snd
    let task1 := { task with targets := some (pySet targets) }
    let task2 :=
      match effective_callback m_cb task1 with
      | some (.callable f) => { task1 with actions := some [TaskAction.built f file_map] }
      | some (.str s) =>
        if s ≠ "" then { task1 with actions := some (get_cmd_action s file_map) } else task1
      | Option.none => task1
    let task3 := if use_file_dep then { task2 with file_dep := some sources } else task2
    .ok task3

/-- The method `BaseFileMapper.get_task` on a mapper state: resolves the (memoized)
mapping and builds the task dictionary. -/
def mstate_get_task (m : MState) (task : Task) : Except String (Task × MState) :=
  let r := get_map m
  match build_task r.1 m.allow_empty_map m.file_dep m.callback task with
  | .error e => .error e
  | .ok t => .ok (t, r.2)

/-- The constructor `MergeMapper.__init__`: the base constructor resolves `src` (a path
list) against the default base directory, then the `target` property setter
runs - raising if the target argument is `None`. -/
def merge_mapper_init (src : List Path) (callback : Option Callback)
    (target : TargetArg) : Except String MState :=
  match merge_target_setter target with
  | .error e => .error e
  | .ok t =>
    .ok { kind := .merge t, callback := callback,
          src := src.map (pathJoin "."), map := [], map_initialized := false }

/-- The method `CompositeMapper._create_map`: `combined_map = []; for sub_mapper in
self.sub_mappers: combined_map += sub_mapper.get_map(); return combined_map`.
The `src` argument of `_create_map` is taken but ignored; each sub-mapper's
(possibly memoizing) `get_map` call updates that sub-mapper's state. -/
def composite_create_map (sub_mappers : List MState) (src : List Path) :
    List (Path × Path) × List MState :=
  match sub_mappers with
  | [] => ([], [])
  | m :: rest =>
    let r := get_map m
    let r2 := composite_create_map rest src
    (r.1 ++ r2.1, r.2 :: r2.2)

/-- The state of a constructed `ChainedMapper`: the inherited base fields
(`base.kind` is unused) plus the ordered sub-mapper list. -/
structure ChainState where
  base : MState
  sub_mappers : List MState

/-- The loop of `ChainedMapper._create_map`: each stage receives the running
`src`, resolves its map (an empty stage map raises - with `allow_empty_map`
set the code path references the undefined name `task`, a `NameError`), the
deduplicated stringified targets become the next `src`, and the first stage's
sources are retained.  Returns the retained first sources, the last stage's
map, the updated sub-mapper states and the final `src`. -/
def chained_loop (allow_empty_map : Bool) :
    List MState → List Path → Option (List Path) → List (Path × Path) →
    Except String (Option (List Path) × List (Path × Path) × List MState × List Path)
  | [], src, start_source, last_map => .ok (start_source, last_map, [], src)
  | m :: rest, src, start_source, _ =>
    let m1 := set_src m src
    let r := get_map m1
    if r.1.isEmpty then
      if allow_empty_map then .error "NameError: name task is not defined"
      else .error "The generated map is empty. Please check your mapper parameters."
    else
      let sources := r.1.map Prod.fst
      let targets := r.1.map Prod.snd
      let src2 := pySet targets
      let start2 := if start_source.getD [] = [] then some sources else start_source
      match chained_loop allow_empty_map rest src2 start2 r.1 with
      | .error e => .error e
      | .ok (a, b, ms, s) => .ok (a, b, r.2 :: ms, s)

/-- The method `ChainedMapper._create_map`: runs the stage loop and then pairs the
retained first-stage sources with the last stage's targets via `zip`.
With no sub-mappers the trailing `zip(*file_map)` reads the undefined name
`file_map`, a `NameError`. -/
def chained_create_map (c : ChainState) (src : List Path) :
    Except String (List (Path × Path) × ChainState) :=
  if c.sub_mappers.isEmpty then .error "NameError: name file_map is not defined"
  else
    match chained_loop c.base.allow_empty_map c.sub_mappers src Option.none [] with
    | .error e => .error e
    | .ok (start_source, last_map, ms, _) =>
      .ok ((start_source.getD []).zip (last_map.map Prod.snd),
           { c with sub_mappers := ms })

/-- The inherited `get_map` as run on a `ChainedMapper` instance (the inherited memoizing
`BaseFileMapper.get_map` dispatching to `ChainedMapper._create_map`). -/
def chain_get_map (c : ChainState) : Except String (List (Path × Path) × ChainState) :=
  if c.base.map_initialized then .ok (c.base.map, c)
  else
    match chained_create_map c c.base.src with
    | .error e => .error e
    | .ok (mp, c1) =>
      .ok (mp, { c1 with base := { c1.base with map := mp, map_initialized := true } })

/-- The method `ChainedMapper._get_taskname`: bumps the per-class counter and returns
the class name suffixed with the new counter value, plus the updated
counters. -/
def get_taskname (counters : String → Nat) (classname : String) :
    String × (String → Nat) :=
  let n := counters classname + 1
  (classname ++ natToStr n, fun x => if x = classname then n else counters x)

/-- The per-stage loop of `ChainedMapper.get_task` (no terminal callback):
each sub-mapper's `src` is set to the running source spec, its own
`get_task` runs on the shared task dictionary, the stage's `targets` become
the next source spec, the generated stage name is stored, and the stage's
dictionary state is yielded.  Returns the yielded dictionary snapshots and
the updated sub-mapper states.  Reading `sub_task["targets"]` of a stage
that produced no `targets` key is a `KeyError`. -/
def chain_stages :
    List MState → List Path → Task → (String → Nat) →
    Except String (List Task × List MState)
  | [], _, _, _ => .ok ([], [])
  | m :: rest, src, task, counters =>
    let m1 := set_src m src
    match mstate_get_task m1 task with
    | .error e => .error e
    | .ok (t1, m2) =>
      match t1.targets with
      | Option.none => .error "KeyError: targets"
      | some tgts =>
        let nm := get_taskname counters (typeName m2.kind)
        let t2 := { t1 with name := some nm.1 }
        match chain_stages rest tgts t2 nm.2 with
        | .error e => .error e
        | .ok (ts, ms) => .ok (t2 :: ts, m2 :: ms)

/-- The generator `ChainedMapper.get_task`: the result is the list of yielded
values (`Option.none` modelling a yielded Python `None`), the final state of
the caller-shared task dictionary, and the updated chain state.  With no
terminal callback it yields each stage's dictionary; with a callback it
builds the combined task via the inherited `get_task`, names it
`"chained_map"`, and then executes a bare `yield`. -/
def chain_get_task (c : ChainState) (task : Task) :
    Except String (List (Option Task) × Task × ChainState) :=
  match c.base.callback with
  | Option.none =>
    match chain_stages c.sub_mappers c.base.src task (fun _ => 0) with
    | .error e => .error e
    | .ok (ts, ms) =>
      .ok (ts.map some, (ts.getLast?).getD task, { c with sub_mappers := ms })
  | some _ =>
    match chain_get_map c with
    | .error e => .error e
    | .ok (fm, c1) =>
      match build_task fm c1.base.allow_empty_map c1.base.file_dep c1.base.callback task with
      | .error e => .error e
      | .ok t =>
        .ok ([Option.none], { t with name := some "chained_map" }, c1)

/-- The sequence of stage names `_get_taskname` produces along a chain: each
class name is suffixed with its running per-class occurrence counter. -/
def name_seq (counters : String → Nat) : List String → List String
  | [] => []
  | t :: ts =>
    (t ++ natToStr (counters t + 1))
      :: name_seq (fun x => if x = t then counters t + 1 else counters x) ts

/-- Observable projection of a `chain_get_task` run: the yielded values and
the final task dictionary's `file_dep`, `targets` and `name` entries. -/
def chain_task_view (r : Except String (List (Option Task) × Task × ChainState)) :
    Option (List (Option Task) × Option (List String) × Option (List String) × Option String) :=
  match r with
  | .ok x => some (x.1, x.2.1.file_dep, x.2.1.targets, x.2.1.name)
  | .error _ => Option.none

/-- A concrete terminal callback (always returns `True`). -/
def c1_f : Path → Path → PyRes := fun _ _ => PyRes.bool true

/-- The chain of the repository's own combined-mode test: source `"start"`,
two stages mapping `start -> foo -> bar`, and a terminal callback. -/
def c1_chain : ChainState :=
  { base := { kind := .identity, callback := some (.callable c1_f), src := ["start"] },
    sub_mappers := [{ kind := .merge "foo" }, { kind := .merge "bar" }] }

/-- An `IdentityMapper` over no sources with `allow_empty_map=True`. -/
def emptyIdentityAllow : MState :=
  { kind := .identity, file_dep := false, allow_empty_map := true }

/-- An `IdentityMapper` over no sources with the default empty-map policy. -/
def emptyIdentityStrict : MState :=
  { kind := .identity, file_dep := false }

/-- A two-stage chain of `IdentityMapper`s with no terminal callback. -/
def w4chain : ChainState :=
  { base := { kind := .identity, src := ["a.txt"] },
    sub_mappers := [{ kind := .identity }, { kind := .identity }] }

/-- The state either sub-mapper of `w4chain` reaches after its stage has run. -/
def w4m : MState :=
  { kind := .identity, src := ["a.txt"], map := [("a.txt", "a.txt")],
    map_initialized := true }

/-- The task dictionary yielded by the first stage of `w4chain`. -/
def w4t1 : Task :=
  { targets := some ["a.txt"], file_dep := some ["a.txt"],
    name := some "IdentityMapper1" }

/-- The task dictionary yielded by the second stage of `w4chain`. -/
def w4t2 : Task :=
  { targets := some ["a.txt"], file_dep := some ["a.txt"],
    name := some "IdentityMapper2" }

/-- An `IdentityMapper` over one source, constructed without a callback. -/
def w10m : MState := { kind := .identity, src := ["a.txt"] }

/-- A concrete callable stored under a task dictionary's `action` key. -/
def w10f : Path → Path → PyRes := fun _ _ => PyRes.bool true

theorem strToNatAux_append (l : List Char) (c : Char) :
    strToNatAux (l ++ [c]) = strToNatAux l * 10 + (c.toNat - 48) := by
  simp [strToNatAux, List.foldl_append]

theorem digitChar_toNat_sub (d : Nat) (h : d < 10) :
    (Nat.digitChar d).toNat - 48 = d := by
  interval_cases d <;> rfl

theorem strToNatAux_natToStrAux (fuel : Nat) :
    ∀ n : Nat, n ≤ fuel → strToNatAux (natToStrAux fuel n) = n := by
  induction fuel with
  | zero =>
    intro n hn
    interval_cases n
    rfl
  | succ fuel ih =>
    intro n hn
    match n with
    | 0 => rfl
    | m + 1 =>
      have hdiv : (m + 1) / 10 ≤ fuel := by
        have h1 : (m + 1) / 10 < m + 1 := Nat.div_lt_self (Nat.succ_pos m) (by omega)
        omega
      have hmod : (m + 1) % 10 < 10 := Nat.mod_lt _ (by omega)
      calc strToNatAux (natToStrAux (fuel + 1) (m + 1))
          = strToNatAux (natToStrAux fuel ((m + 1) / 10) ++ [Nat.digitChar ((m + 1) % 10)]) := rfl
        _ = strToNatAux (natToStrAux fuel ((m + 1) / 10)) * 10
              + ((Nat.digitChar ((m + 1) % 10)).toNat - 48) := strToNatAux_append _ _
        _ = (m + 1) / 10 * 10 + (m + 1) % 10 := by
              rw [ih _ hdiv, digitChar_toNat_sub _ hmod]
        _ = m + 1 := by omega

theorem strToNat_natToStr (n : Nat) : strToNatAux (natToStr n).data = n := by
  by_cases h : n = 0
  · subst h; rfl
  · have : natToStr n = String.mk (natToStrAux n n) := by simp [natToStr, h]
    rw [this]
    exact strToNatAux_natToStrAux n n (Nat.le_refl n)

theorem natToStr_injective : Function.Injective natToStr := by
  intro a b hab
  have := congrArg (fun s => strToNatAux s.data) hab
  simpa [strToNat_natToStr] using this

theorem task_action_go_trace (f : Path → Path → PyRes) (fm : List (Path × Path)) :
    ∀ (ok : Bool) (s : List (Path × Path)),
      (task_action_go (trace_callback f) fm ok s).2 = s ++ fm := by
  induction fm with
  | nil => intro ok s; simp [task_action_go]
  | cons e rest ih =>
    intro ok s
    simp only [task_action_go, trace_callback, ih]
    simp

theorem task_action_go_trace_fst (f : Path → Path → PyRes) (fm : List (Path × Path)) :
    ∀ (ok : Bool) (s : List (Path × Path)),
      (task_action_go (trace_callback f) fm ok s).1
        = (ok && fm.all (fun e => !pyEqFalse (f e.1 e.2))) := by
  induction fm with
  | nil => intro ok s; simp [task_action_go]
  | cons e rest ih =>
    intro ok s
    simp only [task_action_go, trace_callback, ih, List.all_cons]
    rcases Bool.eq_false_or_eq_true (pyEqFalse (f e.1 e.2)) with h | h <;>
      simp only [h] <;> cases ok <;> simp

theorem task_action_pure_eq_all (f : Path → Path → PyRes) (fm : List (Path × Path)) :
    task_action_pure f fm = fm.all (fun e => !pyEqFalse (f e.1 e.2)) := by
  have go : ∀ (l : List (Path × Path)) (ok : Bool),
      (task_action_go (pure_callback f) l ok ()).1
        = (ok && l.all (fun e => !pyEqFalse (f e.1 e.2))) := by
    intro l
    induction l with
    | nil => intro ok; simp [task_action_go]
    | cons e rest ih =>
      intro ok
      simp only [task_action_go, pure_callback, ih, List.all_cons]
      rcases Bool.eq_false_or_eq_true (pyEqFalse (f e.1 e.2)) with h | h <;>
        simp only [h] <;> cases ok <;> simp
  simp [task_action_pure, task_action, go]

theorem get_map_state (m : MState) :
    (get_map m).2 = { m with map := (get_map m).1, map_initialized := true } := by
  unfold get_map
  split
  · rename_i h
    cases m
    simp_all
  · simp

theorem get_map_not_initialized (m : MState) (h : m.map_initialized = false) :
    (get_map m).1 = create_map m.kind m.src := by
  unfold get_map
  rw [h]
  simp

theorem set_src_state (m : MState) (l : List Path) :
    (set_src m l).kind = m.kind ∧ (set_src m l).in_path = m.in_path
    ∧ (set_src m l).callback = m.callback
    ∧ (set_src m l).allow_empty_map = m.allow_empty_map
    ∧ (set_src m l).file_dep = m.file_dep
    ∧ (set_src m l).src = l.map (pathJoin m.in_path)
    ∧ (set_src m l).map_initialized = false := by
  simp [set_src]

/-- C9: the resolved mapping is memoized per source specification: a second
`get_map` call, with no intervening `src` reassignment, returns the cached
list and leaves the state untouched (no recomputation), while reassigning
`src` clears `map_initialized` so that the next `get_map` recomputes the
mapping from the new specification via `_create_map`. -/
theorem get_map_memoized_and_invalidated (m : MState) (src2 : List Path) :
    get_map (get_map m).2 = ((get_map m).1, (get_map m).2)
    ∧ (get_map m).2.map = (get_map m).1
    ∧ (get_map m).2.map_initialized = true
    ∧ (set_src (get_map m).2 src2).map_initialized = false
    ∧ (get_map (set_src (get_map m).2 src2)).1
        = create_map m.kind (src2.map (pathJoin m.in_path)) := by
  have hs := get_map_state m
  refine ⟨?_, ?_, ?_, ?_, ?_⟩
  · rw [hs]
    unfold get_map
    simp
  · rw [hs]
  · rw [hs]
  · simp [set_src]
  · rw [get_map_not_initialized _ (by rw [hs]; simp [set_src])]
    rw [hs]
    simp [set_src]

theorem filter_map_eq_filterMap {α β : Type} (p : α → Bool) (g : α → β) (l : List α) :
    (l.filter p).map g
      = l.filterMap (fun a => if p a then some (g a) else Option.none) := by
  induction l with
  | nil => rfl
  | cons a l ih =>
    rcases h : p a with _ | _ <;> simp [List.filter_cons, List.filterMap_cons, h, ih]

theorem filterMap_congr_mem {α β : Type} (l : List α) (f g : α → Option β)
    (h : ∀ a ∈ l, f a = g a) : l.filterMap f = l.filterMap g := by
  induction l with
  | nil => rfl
  | cons a l ih =>
    simp only [List.filterMap_cons, h a (by simp)]
    rw [ih (fun a ha => h a (by simp [ha]))]

/-- C5: `RegexMapper` resolution, characterized entry by entry: a source the
pattern search matches contributes `(source, substitute(source))`; a
non-matching source is dropped when `ignore_nonmatching` is set, and
otherwise contributes `(source, substitute(source))`, which - the
substitution performing zero replacements - is `(source, source)`. -/
theorem regex_create_map_characterization (m : RegexCfg) (src : List Path) :
    regex_create_map m src
      = src.filterMap (fun f =>
          if m.pattern.search f then some (f, m.pattern.sub f)
          else if m.ignore_nonmatching then Option.none
          else some (f, f)) := by
  rw [regex_create_map, filter_map_eq_filterMap]
  apply filterMap_congr_mem
  intro f _
  rcases hsearch : m.pattern.search f with _ | _
  · rcases hign : m.ignore_nonmatching with _ | _
    · simp [regex_source_matches, regex_get_target_from_source, hsearch, hign,
        m.pattern.sub_of_not_search f hsearch]
    · simp [regex_source_matches, hsearch, hign]
  · simp [regex_source_matches, regex_get_target_from_source, hsearch]

/-- C7: `MergeMapper` pairs every source with the one configured target
(the same target locator in every entry, a string target being normalized
to a path); constructing with target `None` raises "Target must be set!"
from the target-assignment in the constructor itself, while resolution
(`_create_map`) is total and never raises. -/
theorem merge_mapper_contract (src s : List Path) (cb : Option Callback) (t : Path) :
    create_map (.merge t) s = s.map (fun f => (f, t))
    ∧ (∀ e ∈ create_map (.merge t) s, e.2 = t)
    ∧ (∃ m : MState, merge_mapper_init src cb (.path t) = .ok m ∧ m.kind = .merge t)
    ∧ (∃ m : MState, merge_mapper_init src cb (.str t) = .ok m ∧ m.kind = .merge t)
    ∧ merge_mapper_init src cb .none = .error "Target must be set!"
    ∧ "Target must be set".data <:+: "Target must be set!".data := by
  refine ⟨rfl, ?_, ?_, ?_, rfl, ⟨[], "!".data, by simp⟩⟩
  · intro e he
    simp only [create_map, List.mem_map] at he
    obtain ⟨f, _, rfl⟩ := he
    rfl
  · exact ⟨_, rfl, rfl⟩
  · exact ⟨_, rfl, rfl⟩

/-- C8: `CompositeMapper._create_map` concatenates, in sub-mapper order, each
sub-mapper's own (memoized, own-source-spec) resolved mapping, and the `src`
argument handed to the composite's `_create_map` - the composite's own source
specification - has no effect on the result. -/
theorem composite_map_concat_ignores_src (subs : List MState) (src src1 src2 : List Path) :
    composite_create_map subs src1 = composite_create_map subs src2
    ∧ (composite_create_map subs src).1
        = (subs.map (fun m => (get_map m).1)).flatten := by
  induction subs with
  | nil => exact ⟨rfl, rfl⟩
  | cons m rest ih =>
    constructor
    · simp only [composite_create_map]
      rw [ih.1]
    · simp only [composite_create_map, List.map_cons, List.flatten_cons]
      rw [ih.2]

/-- C2 (amended): for every resolved mapping and per-entry callback, the
runnable returned by `get_action` invokes the callback exactly once per
mapping entry, in mapping order and with no short-circuit (the invocation
trace, for an arbitrary instrumented callback result function, is exactly
the mapping), and the runnable's result is failure exactly when some
invocation returned a value comparing equal to `False` (Python `==`, i.e.
`False` or a numeric zero) - not merely a falsy one. -/
theorem get_action_runs_every_entry (f : Path → Path → PyRes)
    (file_map trace0 : List (Path × Path)) :
    (task_action (trace_callback f) file_map trace0).2 = trace0 ++ file_map
    ∧ ((task_action (trace_callback f) file_map trace0).1 = false
        ↔ ∃ e ∈ file_map, pyEqFalse (f e.1 e.2) = true)
    ∧ task_action_pure f file_map
        = file_map.all (fun e => !pyEqFalse (f e.1 e.2)) := by
  refine ⟨task_action_go_trace f file_map true trace0, ?_, task_action_pure_eq_all f file_map⟩
  rw [task_action, task_action_go_trace_fst f file_map true trace0]
  simp only [Bool.true_and]
  constructor
  · intro h
    by_contra hc
    push_neg at hc
    have hall : file_map.all (fun e => !pyEqFalse (f e.1 e.2)) = true :=
      List.all_eq_true.mpr (fun e he => by simpa using hc e he)
    rw [hall] at h
    exact absurd h (by simp)
  · intro hex
    obtain ⟨e, he, hee⟩ := hex
    rcases hall : file_map.all (fun e => !pyEqFalse (f e.1 e.2)) with _ | _
    · rfl
    · have := List.all_eq_true.mp hall e he
      simp [hee] at this

/-- C2 counterexample: a callback returning Python `None` - a falsy value -
does not fail the built action: `None == False` is false, so the runnable
still reports success, refuting "failure iff at least one callback
invocation returned a falsy result". -/
theorem get_action_falsy_none_still_succeeds :
    pyFalsy PyRes.none = true
    ∧ task_action_pure (fun _ _ => PyRes.none) [("a.txt", "b.txt")] = true :=
  ⟨rfl, rfl⟩

/-- C3 (amended): with an empty resolved mapping, `get_task` raises the
empty-map `RuntimeError` unless `allow_empty_map` is set, in which case it
returns the base descriptor with the `targets` key left untouched (absent
when absent, rather than set to an empty collection) and - when the base
descriptor carries no `actions` - a substituted no-op action that succeeds
when invoked. -/
theorem get_task_empty_map_policy (m : MState) (task : Task)
    (h : (get_map m).1 = []) :
    (m.allow_empty_map = false →
      mstate_get_task m task
        = .error "The generated map is empty. Please check your mapper parameters.")
    ∧ (m.allow_empty_map = true →
      mstate_get_task m task = .ok (get_task_for_empty_map task, (get_map m).2)
      ∧ (get_task_for_empty_map task).targets = task.targets
      ∧ (task.actions = Option.none →
          (get_task_for_empty_map task).actions = some [TaskAction.noop]
          ∧ TaskAction.invoke TaskAction.noop = true)
      ∧ (∀ acts, task.actions = some acts →
          (get_task_for_empty_map task).actions = some acts)) := by
  constructor
  · intro hallow
    simp [mstate_get_task, build_task, h, hallow]
  · intro hallow
    refine ⟨?_, ?_, ?_, ?_⟩
    · simp [mstate_get_task, build_task, h, hallow]
    · rcases htask : task.actions <;> simp [get_task_for_empty_map, htask]
    · intro hacts
      simp [get_task_for_empty_map, hacts, TaskAction.invoke]
    · intro acts hacts
      simp [get_task_for_empty_map, hacts]

/-- Witness for C3 at concrete inputs: an `IdentityMapper` over no sources
raises the empty-map error by default, and with `allow_empty_map` the empty
base descriptor gets the no-op action, which succeeds. -/
theorem get_task_empty_map_policy_witness :
    mstate_get_task emptyIdentityStrict emptyTask
      = .error "The generated map is empty. Please check your mapper parameters."
    ∧ (get_task_for_empty_map emptyTask).actions = some [TaskAction.noop]
    ∧ TaskAction.invoke TaskAction.noop = true := by
  refine ⟨(get_task_empty_map_policy emptyIdentityStrict emptyTask rfl).1 rfl, ?_, ?_⟩
  · exact ((((get_task_empty_map_policy emptyIdentityAllow emptyTask rfl).2 rfl).2.2.1) rfl).1
  · exact ((((get_task_empty_map_policy emptyIdentityAllow emptyTask rfl).2 rfl).2.2.1) rfl).2

/-- C3 counterexample: with `allow_empty_map` set and the base descriptor
`{}`, the returned descriptor has no `targets` key at all (the key is
absent, `Option.none`), not a present-and-empty `targets` entry. -/
theorem get_task_empty_map_targets_absent :
    mstate_get_task emptyIdentityAllow emptyTask
      = .ok ({ actions := some [TaskAction.noop] },
             { emptyIdentityAllow with map_initialized := true })
    ∧ ({ actions := some [TaskAction.noop] } : Task).targets = Option.none
    ∧ (Option.none : Option (List String)) ≠ some [] := ⟨rfl, rfl, by simp⟩

/-- C10: with the mapper's own callback unset and a non-empty mapping, a
callable stored under the base descriptor's `action` key becomes the
per-entry callback of the built action stored under `actions`, and a
non-callable truthy (non-empty string) value is treated as a command
template expanded once per mapping entry, in mapping order. -/
theorem get_task_action_key_dispatch (m : MState) (task : Task)
    (f : Path → Path → PyRes) (s : String)
    (hcb : m.callback = Option.none) (hne : (get_map m).1 ≠ []) :
    (task.action = some (.callable f) →
      ∃ t m2, mstate_get_task m task = .ok (t, m2)
        ∧ t.actions = some [TaskAction.built f (get_map m).1])
    ∧ (task.action = some (.str s) → s ≠ "" →
      ∃ t m2, mstate_get_task m task = .ok (t, m2)
        ∧ t.actions = some (get_cmd_action s (get_map m).1)
        ∧ get_cmd_action s (get_map m).1
            = (get_map m).1.map (fun e => TaskAction.cmd (cmd_expand s e.1 e.2))) := by
  have hemp : (get_map m).1.isEmpty = false := by
    cases hl : (get_map m).1 with
    | nil => exact absurd hl hne
    | cons a l => rfl
  constructor
  · intro hact
    have hb : ∃ t, build_task (get_map m).1 m.allow_empty_map m.file_dep m.callback task
        = .ok t ∧ t.actions = some [TaskAction.built f (get_map m).1] := by
      simp only [build_task, hemp, Bool.false_eq_true, if_false,
        effective_callback, hcb, hact]
      refine ⟨_, rfl, ?_⟩
      rcases hfd : m.file_dep with _ | _ <;> simp [hfd]
    obtain ⟨t, hbt, hacts⟩ := hb
    refine ⟨t, (get_map m).2, ?_, hacts⟩
    simp only [mstate_get_task, hbt]
  · intro hact hs
    have hb : ∃ t, build_task (get_map m).1 m.allow_empty_map m.file_dep m.callback task
        = .ok t ∧ t.actions = some (get_cmd_action s (get_map m).1) := by
      simp only [build_task, hemp, Bool.false_eq_true, if_false,
        effective_callback, hcb, hact, if_pos hs]
      refine ⟨_, rfl, ?_⟩
      rcases hfd : m.file_dep with _ | _ <;> simp [hfd]
    obtain ⟨t, hbt, hacts⟩ := hb
    refine ⟨t, (get_map m).2, ?_, hacts, rfl⟩
    simp only [mstate_get_task, hbt]

/-- Witness for C10 at concrete inputs: an `IdentityMapper` over `a.txt`
without a callback, run on a task carrying a callable (resp. the template
`"cp %(source)s %(target)s"`) under `action`. -/
theorem get_task_action_key_dispatch_witness :
    (∃ t m2, mstate_get_task w10m { action := some (.callable w10f) } = .ok (t, m2)
      ∧ t.actions = some [TaskAction.built w10f [("a.txt", "a.txt")]])
    ∧ (∃ t m2,
        mstate_get_task w10m { action := some (.str "cp %(source)s %(target)s") } = .ok (t, m2)
        ∧ t.actions = some [TaskAction.cmd "cp a.txt a.txt"]) := by
  constructor
  · have h := (get_task_action_key_dispatch w10m { action := some (.callable w10f) }
      w10f "" rfl (by simp [w10m, get_map, create_map])).1 rfl
    exact h
  · have h := (get_task_action_key_dispatch w10m
      { action := some (.str "cp %(source)s %(target)s") }
      w10f "cp %(source)s %(target)s" rfl (by simp [w10m, get_map, create_map])).2 rfl
      (by simp)
    obtain ⟨t, m2, hok, hacts, _⟩ := h
    exact ⟨t, m2, hok, by rw [hacts]; rfl⟩

/-- C1 (code bug): in combined-mapping mode (terminal callback given) the
generator body computes the combined task - whose `file_dep` is the original
first-stage source list and whose `targets` is the stringified final-stage
target set - but ends in a bare `yield`, so the single yielded value is
`None` rather than the descriptor.  Evaluated at the configuration of the
repository's own test (`start -> foo -> bar`): the yield list is `[None]`
while the (discarded) descriptor has `file_dep == ["start"]` and
`targets == ["bar"]`. -/
theorem chained_combined_mode_yields_none :
    chain_task_view (chain_get_task c1_chain emptyTask)
      = some ([Option.none], some ["start"], some ["bar"], some "chained_map") := rfl

theorem stringExt {s t : String} (h : s.data = t.data) : s = t := by
  cases s
  cases t
  exact congrArg String.mk h

theorem no_star_of_count_zero (l : List Char)
    (h : (l.filter (fun c => c = '*')).length = 0) : '*' ∉ l := by
  intro hm
  have hmem : '*' ∈ l.filter (fun c => c = '*') := List.mem_filter.mpr ⟨hm, by simp⟩
  rw [List.length_eq_zero] at h
  rw [h] at hmem
  exact absurd hmem (List.not_mem_nil _)

theorem count_zero_of_no_star (l : List Char) (h : '*' ∉ l) :
    (l.filter (fun c => c = '*')).length = 0 := by
  rw [List.length_eq_zero, List.filter_eq_nil_iff]
  intro a ha
  simp only [decide_eq_true_eq]
  intro he
  rw [he] at ha
  exact h ha

theorem takeWhile_append_star (b : List Char) (a : List Char) (hb : '*' ∉ b) :
    (b ++ '*' :: a).takeWhile (fun c => c ≠ '*') = b
    ∧ (b ++ '*' :: a).dropWhile (fun c => c ≠ '*') = '*' :: a := by
  induction b with
  | nil => simp [List.takeWhile_cons, List.dropWhile_cons]
  | cons c cs ih =>
    have hc : c ≠ '*' := fun h => hb (by simp [h])
    have hcs : '*' ∉ cs := fun h => hb (by simp [h])
    constructor
    · simp only [List.cons_append, List.takeWhile_cons, decide_eq_true_eq]
      rw [if_pos hc, (ih hcs).1]
    · simp only [List.cons_append, List.dropWhile_cons, decide_eq_true_eq]
      rw [if_pos hc, (ih hcs).2]

theorem count_one_split (l : List Char)
    (h : (l.filter (fun c => c = '*')).length = 1) :
    ∃ b a, l = b ++ '*' :: a ∧ '*' ∉ b ∧ '*' ∉ a := by
  induction l with
  | nil => simp at h
  | cons c cs ih =>
    by_cases hc : c = '*'
    · subst hc
      have hlen : (cs.filter (fun c => c = '*')).length = 0 := by
        simp only [List.filter_cons] at h
        rw [if_pos (by decide)] at h
        simp only [List.length_cons] at h
        omega
      exact ⟨[], cs, rfl, by simp, no_star_of_count_zero cs hlen⟩
    · have h1 : (cs.filter (fun c => c = '*')).length = 1 := by
        simpa [List.filter_cons, hc] using h
      obtain ⟨b, a, rfl, hb, ha⟩ := ih h1
      refine ⟨c :: b, a, rfl, ?_, ha⟩
      intro hm
      rcases List.mem_cons.mp hm with h2 | h2
      · exact hc h2.symm
      · exact hb h2

theorem single_star_decomp (p : String) (h : count_asterisks p = 1) :
    ∃ before after : String,
      p = before ++ "*" ++ after
      ∧ count_asterisks before = 0 ∧ count_asterisks after = 0
      ∧ glob_parts p = (before, after) := by
  obtain ⟨b, a, hdata, hb, ha⟩ := count_one_split p.data h
  refine ⟨String.mk b, String.mk a, ?_, ?_, ?_, ?_⟩
  · apply stringExt
    rw [hdata]
    simp [String.data_append]
  · exact count_zero_of_no_star b hb
  · exact count_zero_of_no_star a ha
  · have hw := takeWhile_append_star b a hb
    simp only [glob_parts, hdata, hw.1, hw.2]
    rfl

theorem get_search_regex_bad_count (q : String) (hq : count_asterisks q ≠ 1) :
    ∃ msg, get_search_regex q = .error msg ∧ "asterisk".data <:+: msg.data := by
  simp only [get_search_regex]
  by_cases h0 : count_asterisks q = 0
  · rw [if_pos h0]
    exact ⟨_, rfl, by decide⟩
  · rw [if_neg h0, if_pos (by omega)]
    exact ⟨_, rfl, by decide⟩

theorem get_search_regex_single (q : String) (hq : count_asterisks q = 1) :
    get_search_regex q
      = .ok ("^" ++ re_escape (glob_parts q).1 ++ "(.+)" ++ re_escape (glob_parts q).2 ++ "$") := by
  simp only [get_search_regex]
  rw [if_neg (by omega), if_neg (by omega)]

/-- C6: `GlobMapper` construction raises - at construction time - on a glob
search pattern with zero or more than one asterisk, with an error message
mentioning "asterisk"; a valid single-asterisk pattern `before ++ "*" ++
after` is translated into the anchored regex `"^" ++ escape before ++ "(.+)"
++ escape after ++ "$"` (the `(.+)` group requiring at least one character),
the replacement's first asterisk becomes the backreference `\1`, and the
resulting pair is delegated unchanged to `RegexMapper`.  (A pattern supplied
through the `pattern` keyword must be non-empty to be picked up at all,
Python truthiness treating `""` as an absent argument.) -/
theorem glob_mapper_asterisk_contract (p replace : String) (src : GlobSrc) :
    (count_asterisks p ≠ 1 →
      (∃ msg, glob_mapper_init (.str p) replace Option.none = .error msg
        ∧ "asterisk".data <:+: msg.data)
      ∧ (p ≠ "" → ∃ msg, glob_mapper_init src replace (some p) = .error msg
        ∧ "asterisk".data <:+: msg.data))
    ∧ (count_asterisks p = 1 →
      ∃ before after : String,
        p = before ++ "*" ++ after
        ∧ count_asterisks before = 0
        ∧ count_asterisks after = 0
        ∧ glob_mapper_init (.str p) replace Option.none
            = .ok ⟨"^" ++ re_escape before ++ "(.+)" ++ re_escape after ++ "$",
                   replace_first_star replace⟩
        ∧ glob_mapper_init src replace (some p)
            = .ok ⟨"^" ++ re_escape before ++ "(.+)" ++ re_escape after ++ "$",
                   replace_first_star replace⟩)
    ∧ (∀ rb ra : String, replace = rb ++ "*" ++ ra → count_asterisks rb = 0 →
        replace_first_star replace = rb ++ "\\1" ++ ra) := by
  refine ⟨?_, ?_, ?_⟩
  · intro hq
    obtain ⟨msg, hmsg, hinf⟩ := get_search_regex_bad_count p hq
    constructor
    · exact ⟨msg, by simp only [glob_mapper_init, hmsg], hinf⟩
    · intro hp
      refine ⟨msg, ?_, hinf⟩
      simp only [glob_mapper_init]
      rw [if_neg hp]
      simp only [hmsg]
  · intro h1
    obtain ⟨before, after, hp, hb, ha, hgp⟩ := single_star_decomp p h1
    have hok := get_search_regex_single p h1
    rw [hgp] at hok
    have hne : p ≠ "" := by
      intro he
      rw [he] at h1
      simp [count_asterisks] at h1
    refine ⟨before, after, hp, hb, ha, ?_, ?_⟩
    · simp only [glob_mapper_init, hok]
    · simp only [glob_mapper_init]
      rw [if_neg hne]
      simp only [hok]
  · intro rb ra hrepl hrb
    have hdata : replace.data = rb.data ++ '*' :: ra.data := by
      rw [hrepl]
      simp [String.data_append]
    have hstar : '*' ∉ rb.data := no_star_of_count_zero rb.data hrb
    have hw := takeWhile_append_star rb.data ra.data hstar
    have hcont : (rb.data ++ '*' :: ra.data).contains '*' = true :=
      List.elem_iff.mpr (by simp)
    simp only [replace_first_star, hdata, hcont, eq_self_iff_true, if_true, hw.1, hw.2,
      List.drop_succ_cons, List.drop_zero]

/-- Witness for C6 at concrete patterns: `"*.foo"` (one asterisk) translates
to `^(.+)\.foo$` with replacement `\1.bar`, while `"x.foo"` (zero) and
`"**.foo"` (two) raise errors mentioning "asterisk". -/
theorem glob_mapper_asterisk_contract_witness :
    glob_mapper_init (.str "*.foo") "*.bar" Option.none = .ok ⟨"^(.+)\\.foo$", "\\1.bar"⟩
    ∧ (∃ msg, glob_mapper_init (.str "x.foo") "*.bar" Option.none = .error msg
        ∧ "asterisk".data <:+: msg.data)
    ∧ (∃ msg, glob_mapper_init (.paths []) "*.bar" (some "**.foo") = .error msg
        ∧ "asterisk".data <:+: msg.data)
    ∧ replace_first_star "*.bar" = "\\1.bar" := by
  refine ⟨rfl, ?_, ?_, ?_⟩
  · exact (((glob_mapper_asterisk_contract "x.foo" "*.bar" (.paths [])).1 (by decide)).1)
  · exact (((glob_mapper_asterisk_contract "**.foo" "*.bar" (.paths [])).1 (by decide)).2
      (by decide))
  · exact ((glob_mapper_asterisk_contract "x" "*.bar" (.paths [])).2.2 "" ".bar" rfl
      (by decide))

theorem append_left_cancel_str {t a b : String} (h : t ++ a = t ++ b) : a = b := by
  have hd := congrArg String.data h
  rw [String.data_append, String.data_append] at hd
  exact stringExt (List.append_cancel_left hd)

theorem head_clash (s t x y : String) (c d : Char) (cs ds : List Char)
    (hs : s.data = c :: cs) (ht : t.data = d :: ds) (hcd : c ≠ d) :
    s ++ x ≠ t ++ y := by
  intro h
  have hd := congrArg String.data h
  rw [String.data_append, String.data_append, hs, ht] at hd
  injection hd with h1 _
  exact hcd h1

/-- The class names of the modelled concrete mappers. -/
def mapperNames : List String := ["IdentityMapper", "RegexMapper", "MergeMapper"]

theorem typeName_mem (k : MapperKind) : typeName k ∈ mapperNames := by
  cases k <;> simp [typeName, mapperNames]

theorem mapper_name_ne (t1 t2 : String) (h1 : t1 ∈ mapperNames) (h2 : t2 ∈ mapperNames)
    (hne : t1 ≠ t2) (a b : Nat) : t1 ++ natToStr a ≠ t2 ++ natToStr b := by
  fin_cases h1 <;> fin_cases h2 <;>
    first
      | exact absurd rfl hne
      | exact head_clash _ _ _ _ _ _ _ _ rfl rfl (by decide)

theorem name_seq_mem (ts : List String) :
    ∀ (c : String → Nat) (x : String), x ∈ name_seq c ts →
      ∃ t k, t ∈ ts ∧ c t < k ∧ x = t ++ natToStr k := by
  induction ts with
  | nil =>
    intro c x hx
    simp [name_seq] at hx
  | cons t rest ih =>
    intro c x hx
    simp only [name_seq, List.mem_cons] at hx
    rcases hx with hx | hx
    · exact ⟨t, c t + 1, by simp, by omega, hx⟩
    · obtain ⟨t2, k, ht2, hk, hx2⟩ := ih _ x hx
      refine ⟨t2, k, by simp [ht2], ?_, hx2⟩
      by_cases he : t2 = t
      · subst he
        simp at hk
        omega
      · simpa [he] using hk

theorem name_seq_nodup (ts : List String) (hts : ∀ t ∈ ts, t ∈ mapperNames) :
    ∀ c : String → Nat, (name_seq c ts).Nodup := by
  induction ts with
  | nil => intro c; simp [name_seq]
  | cons t rest ih =>
    intro c
    simp only [name_seq]
    refine List.nodup_cons.mpr ⟨?_, ih (fun a ha => hts a (by simp [ha])) _⟩
    intro hmem
    obtain ⟨t2, k, ht2, hk, hx⟩ := name_seq_mem rest _ _ hmem
    by_cases he : t2 = t
    · subst he
      simp at hk
      have h3 : natToStr (c t2 + 1) = natToStr k := append_left_cancel_str hx
      have h4 := natToStr_injective h3
      omega
    · exact mapper_name_ne t t2 (hts t (by simp)) (hts t2 (by simp [ht2]))
        (fun hh => he hh.symm) (c t + 1) k hx

theorem mstate_get_task_state (m : MState) (task t : Task) (m2 : MState)
    (h : mstate_get_task m task = .ok (t, m2)) : m2 = (get_map m).2 := by
  simp only [mstate_get_task] at h
  rcases hb : build_task (get_map m).1 m.allow_empty_map m.file_dep m.callback task
    with e | t0
  · rw [hb] at h
    simp at h
  · rw [hb] at h
    simp only [Except.ok.injEq, Prod.mk.injEq] at h
    exact h.2.symm

theorem chain_stages_spec :
    ∀ (subs : List MState) (src : List Path) (task : Task) (counters : String → Nat)
      (ts : List Task) (ms : List MState),
      chain_stages subs src task counters = .ok (ts, ms) →
      ts.length = subs.length
      ∧ ms.length = subs.length
      ∧ ts.map Task.name
          = (name_seq counters (subs.map (fun m => typeName m.kind))).map some
      ∧ (∀ m0, ms.get? 0 = some m0 → ∀ s0, subs.get? 0 = some s0 →
          m0.src = src.map (pathJoin s0.in_path))
      ∧ (∀ i ti mi si, ts.get? i = some ti → ms.get? (i + 1) = some mi →
          subs.get? (i + 1) = some si →
          ∃ tgts, ti.targets = some tgts ∧ mi.src = tgts.map (pathJoin si.in_path)) := by
  intro subs
  induction subs with
  | nil =>
    intro src task counters ts ms h
    simp only [chain_stages, Except.ok.injEq, Prod.mk.injEq] at h
    obtain ⟨h1, h2⟩ := h
    subst h1
    subst h2
    refine ⟨rfl, rfl, rfl, ?_, ?_⟩
    · intro m0 hm0
      simp at hm0
    · intro i ti mi si hti
      simp at hti
  | cons m rest ih =>
    intro src task counters ts ms h
    simp only [chain_stages] at h
    rcases h1 : mstate_get_task (set_src m src) task with e | p
    · rw [h1] at h
      simp at h
    · obtain ⟨t1, m2⟩ := p
      rw [h1] at h
      simp only [] at h
      rcases h2 : t1.targets with _ | tgts
      · rw [h2] at h
        simp at h
      · rw [h2] at h
        simp only [] at h
        rcases h3 : chain_stages rest tgts
            { targets := some tgts, actions := t1.actions, file_dep := t1.file_dep,
              action := t1.action,
              name := some (get_taskname counters (typeName m2.kind)).1 }
            (get_taskname counters (typeName m2.kind)).2 with e | q
        · rw [h3] at h
          simp at h
        · obtain ⟨ts2, ms2⟩ := q
          rw [h3] at h
          simp only [Except.ok.injEq, Prod.mk.injEq] at h
          obtain ⟨hts, hms⟩ := h
          subst hts
          subst hms
          have hm2 : m2 = (get_map (set_src m src)).2 :=
            mstate_get_task_state _ _ _ _ h1
          have hkind : m2.kind = m.kind := by
            rw [hm2, get_map_state]
            rfl
          have hsrc2 : m2.src = src.map (pathJoin m.in_path) := by
            rw [hm2, get_map_state]
            rfl
          obtain ⟨ihlen, ihlen2, ihnames, ihhead, ihthread⟩ := ih tgts _ _ _ _ h3
          refine ⟨?_, ?_, ?_, ?_, ?_⟩
          · simp [ihlen]
          · simp [ihlen2]
          · simp only [List.map_cons, name_seq]
            rw [← hkind, ihnames]
            rfl
          · intro m0 hm0 s0 hs0
            simp only [List.get?] at hm0 hs0
            injection hm0 with hm0
            injection hs0 with hs0
            subst hm0
            subst hs0
            exact hsrc2
          · intro i ti mi si hti hmi hsi
            match i with
            | 0 =>
              simp only [List.get?] at hti hmi hsi
              injection hti with hti
              subst hti
              refine ⟨tgts, rfl, ?_⟩
              exact ihhead mi hmi si hsi
            | Nat.succ j =>
              simp only [List.get?] at hti hmi hsi
              exact ihthread j ti mi si hti hmi hsi

/-- C4: with no terminal callback, `ChainedMapper.get_task` yields exactly one
task descriptor per stage, in stage order; before a stage builds its
descriptor, its sub-mapper's source specification has been set (through the
`src` setter) to the previous stage's resolved `targets` - the first stage
receiving the chain's own source list - and every yielded descriptor carries
the generated name `typeName ++ occurrence-counter`, these names being
pairwise distinct. -/
theorem chained_per_stage_tasks (c : ChainState) (task : Task)
    (ys : List (Option Task)) (tfin : Task) (c2 : ChainState)
    (hcb : c.base.callback = Option.none)
    (h : chain_get_task c task = .ok (ys, tfin, c2)) :
    ∃ ts : List Task,
      ys = ts.map some
      ∧ ts.length = c.sub_mappers.length
      ∧ ts.map Task.name
          = (name_seq (fun _ => 0) (c.sub_mappers.map (fun m => typeName m.kind))).map some
      ∧ (ts.map Task.name).Nodup
      ∧ c2.sub_mappers.length = c.sub_mappers.length
      ∧ (∀ m0, c2.sub_mappers.get? 0 = some m0 →
          ∀ s0, c.sub_mappers.get? 0 = some s0 →
          m0.src = c.base.src.map (pathJoin s0.in_path))
      ∧ (∀ i ti mi si, ts.get? i = some ti →
          c2.sub_mappers.get? (i + 1) = some mi →
          c.sub_mappers.get? (i + 1) = some si →
          ∃ tgts, ti.targets = some tgts ∧ mi.src = tgts.map (pathJoin si.in_path)) := by
  simp only [chain_get_task, hcb] at h
  rcases hs : chain_stages c.sub_mappers c.base.src task (fun _ => 0) with e | q
  · rw [hs] at h
    simp at h
  · obtain ⟨ts, ms⟩ := q
    rw [hs] at h
    simp only [Except.ok.injEq, Prod.mk.injEq] at h
    obtain ⟨hys, _, hc2⟩ := h
    obtain ⟨hlen, hlen2, hnames, hhead, hthread⟩ :=
      chain_stages_spec c.sub_mappers c.base.src task (fun _ => 0) ts ms hs
    refine ⟨ts, hys.symm, hlen, hnames, ?_, ?_, ?_, ?_⟩
    · rw [hnames]
      refine List.Nodup.map (fun a b hab => Option.some.inj hab) ?_
      refine name_seq_nodup _ ?_ _
      intro t ht
      obtain ⟨k, _, rfl⟩ := List.mem_map.mp ht
      exact typeName_mem k.kind
    · rw [← hc2]
      exact hlen2
    · intro m0 hm0 s0 hs0
      rw [← hc2] at hm0
      exact hhead m0 hm0 s0 hs0
    · intro i ti mi si hti hmi hsi
      rw [← hc2] at hmi
      exact hthread i ti mi si hti hmi hsi

/-- Witness for C4 at a concrete two-stage chain of `IdentityMapper`s over
`a.txt`: exactly two descriptors are yielded, named `IdentityMapper1` and
`IdentityMapper2` (distinct), the second stage's source spec being the first
stage's targets. -/
theorem chained_per_stage_tasks_witness :
    ∃ ts : List Task,
      ([some w4t1, some w4t2] : List (Option Task)) = ts.map some
      ∧ ts.map Task.name
          = (name_seq (fun _ => 0) (w4chain.sub_mappers.map (fun m => typeName m.kind))).map some
      ∧ (ts.map Task.name).Nodup
      ∧ name_seq (fun _ => 0) (w4chain.sub_mappers.map (fun m => typeName m.kind))
          = ["IdentityMapper1", "IdentityMapper2"]
      ∧ w4t1.targets = some ["a.txt"]
      ∧ w4m.src = ["a.txt"] := by
  have hrun : chain_get_task w4chain emptyTask
      = .ok ([some w4t1, some w4t2], w4t2, ⟨w4chain.base, [w4m, w4m]⟩) := rfl
  obtain ⟨ts, hys, _, hnames, hnodup, _, _, _⟩ :=
    chained_per_stage_tasks w4chain emptyTask [some w4t1, some w4t2] w4t2
      ⟨w4chain.base, [w4m, w4m]⟩ rfl hrun
  exact ⟨ts, hys, hnames, hnodup, rfl, rfl, rfl⟩

end DoitFileMappers
